import Mathlib

/-!
Verification of the Black-Scholes pricing notebook.

The repository's single computational artefact is the Python function
`BlackScholes(r, S, K, T, sigma, option_type="C", q=0)`, which derives the
standardized variables d1 and d2, evaluates the standard normal cdf/pdf at
them, prints the option price and five Greeks for a Call ("C") or Put ("P")
option, prints an error message for any other option type, and returns None.

This file gives a shallow embedding of that function over the real numbers
(the standard normal cdf `normCdf` is the genuine Lebesgue integral of the
density) and proves or refutes the specification's claims about it.
-/

open MeasureTheory Set intervalIntegral

noncomputable section

/-- Standard normal probability density function, as used by `scipy.stats.norm.pdf(x, 0, 1)`:
`exp(-x^2/2) / sqrt(2*pi)`. -/
def normPdf (x : ℝ) : ℝ := Real.exp (-(x ^ 2 / 2)) / Real.sqrt (2 * Real.pi)

/-- Standard normal cumulative distribution function, as used by
`scipy.stats.norm.cdf(x, 0, 1)`: the integral of the density over `(-infty, x]`. -/
def normCdf (x : ℝ) : ℝ := ∫ t in Iic x, normPdf t

lemma normPdf_pos (x : ℝ) : 0 < normPdf x := by
  have h2π : (0 : ℝ) < 2 * Real.pi := by positivity
  exact div_pos (Real.exp_pos _) (Real.sqrt_pos.mpr h2π)

lemma normPdf_nonneg (x : ℝ) : 0 ≤ normPdf x := (normPdf_pos x).le

lemma normPdf_neg (x : ℝ) : normPdf (-x) = normPdf x := by
  simp [normPdf, neg_sq]

lemma integrable_normPdf : Integrable normPdf := by
  have h : Integrable (fun x : ℝ => Real.exp (-(1/2 : ℝ) * x ^ 2)) :=
    integrable_exp_neg_mul_sq (by norm_num)
  have h2 := h.div_const (Real.sqrt (2 * Real.pi))
  have e : (fun x : ℝ => Real.exp (-(1/2 : ℝ) * x ^ 2) / Real.sqrt (2 * Real.pi)) = normPdf := by
    funext x
    have : -(1/2 : ℝ) * x ^ 2 = -(x ^ 2 / 2) := by ring
    rw [normPdf, this]
  rwa [e] at h2

lemma integral_normPdf : ∫ x, normPdf x = 1 := by
  have h : ∫ x : ℝ, Real.exp (-(1/2 : ℝ) * x ^ 2) = Real.sqrt (Real.pi / (1/2)) :=
    integral_gaussian (1/2 : ℝ)
  have e : (fun x : ℝ => normPdf x)
      = fun x : ℝ => Real.exp (-(1/2 : ℝ) * x ^ 2) / Real.sqrt (2 * Real.pi) := by
    funext x
    have : -(1/2 : ℝ) * x ^ 2 = -(x ^ 2 / 2) := by ring
    rw [normPdf, this]
  have hπ : (Real.pi / (1/2)) = 2 * Real.pi := by ring
  have hs : Real.sqrt (2 * Real.pi) ≠ 0 := by positivity
  rw [e, MeasureTheory.integral_div, h, hπ, div_self hs]

lemma integrableOn_normPdf_Iic (x : ℝ) : IntegrableOn normPdf (Iic x) :=
  integrable_normPdf.integrableOn

lemma normCdf_add_normCdf_neg (x : ℝ) : normCdf x + normCdf (-x) = 1 := by
  have h1 : normCdf x = ∫ t in Ioi (-x), normPdf t := by
    have h := integral_comp_neg_Iic x normPdf
    have h2 : (∫ t in Iic x, normPdf (-t)) = ∫ t in Iic x, normPdf t := by
      simp only [normPdf_neg]
    rw [normCdf, ← h2, h]
  have h2 := MeasureTheory.integral_add_compl
    (measurableSet_Iic : MeasurableSet (Iic (-x))) integrable_normPdf
  rw [compl_Iic, integral_normPdf] at h2
  rw [h1, normCdf, add_comm]
  exact h2

lemma normCdf_neg_eq (x : ℝ) : normCdf (-x) = 1 - normCdf x := by
  have := normCdf_add_normCdf_neg x
  linarith

lemma normCdf_zero : normCdf 0 = 1/2 := by
  have h := normCdf_add_normCdf_neg 0
  rw [neg_zero] at h
  linarith

lemma normCdf_nonneg (x : ℝ) : 0 ≤ normCdf x :=
  setIntegral_nonneg measurableSet_Iic fun t _ => normPdf_nonneg t

lemma normCdf_le_one (x : ℝ) : normCdf x ≤ 1 := by
  have h : (∫ t in Iic x, normPdf t) ≤ ∫ t, normPdf t :=
    setIntegral_le_integral integrable_normPdf
      (Filter.Eventually.of_forall normPdf_nonneg)
  rw [integral_normPdf] at h
  exact h

lemma normCdf_mono {a b : ℝ} (hab : a ≤ b) : normCdf a ≤ normCdf b := by
  refine setIntegral_mono_set (integrableOn_normPdf_Iic b)
    (Filter.Eventually.of_forall normPdf_nonneg) ?_
  exact Filter.Eventually.of_forall (Iic_subset_Iic.mpr hab)

lemma normCdf_pos (x : ℝ) : 0 < normCdf x := by
  have hlt : x - 1 < x := by linarith
  have hpos : 0 < ∫ t in (x - 1)..x, normPdf t :=
    intervalIntegral_pos_of_pos_on integrable_normPdf.intervalIntegrable
      (fun t _ => normPdf_pos t) hlt
  have heq : (∫ t in (x - 1)..x, normPdf t) = ∫ t in Ioc (x - 1) x, normPdf t :=
    integral_of_le hlt.le
  have hle : (∫ t in Ioc (x - 1) x, normPdf t) ≤ normCdf x := by
    refine setIntegral_mono_set (integrableOn_normPdf_Iic x)
      (Filter.Eventually.of_forall normPdf_nonneg) ?_
    exact Filter.Eventually.of_forall Ioc_subset_Iic_self
  calc 0 < ∫ t in (x - 1)..x, normPdf t := hpos
  _ = ∫ t in Ioc (x - 1) x, normPdf t := heq
  _ ≤ normCdf x := hle

lemma normCdf_lt_one (x : ℝ) : normCdf x < 1 := by
  have h := normCdf_pos (-x)
  have h2 := normCdf_add_normCdf_neg x
  linarith

lemma normCdf_sub_normCdf (a b : ℝ) :
    normCdf b - normCdf a = ∫ t in a..b, normPdf t := by
  rw [normCdf, normCdf]
  exact integral_Iic_sub_Iic (integrableOn_normPdf_Iic a) (integrableOn_normPdf_Iic b)

/-! ## Shallow embedding of the notebook's `BlackScholes` function

The Python function prints a block of results (or an error message) and
returns `None`.  The embedding makes both observable channels explicit:
`BSRun.printed` is the report written to the console and `BSRun.returned`
is the Python return value (always `None`).  The subfunctions
`calc_delta`, `calc_theta` and `calc_rho` return Python `None` for an
unrecognized option type, hence their `Option ℝ` result type. -/

/-- The record of values printed for one option: price and the five Greeks.
`delta`, `theta`, `rho` are `Option ℝ` because the corresponding Python
subfunctions fall through (returning `None`) on an unrecognized type. -/
structure PricingResult where
  price : ℝ
  delta : Option ℝ
  gamma : ℝ
  vega : ℝ
  theta : Option ℝ
  rho : Option ℝ

/-- What one call of `BlackScholes` writes to the console: a Call block,
a Put block, or the caught `ValueError` message for an invalid option type. -/
inductive BSReport where
  | callReport (res : PricingResult) : BSReport
  | putReport (res : PricingResult) : BSReport
  | invalidOptionTypeError : BSReport

/-- One call of the Python function: what it printed and what it returned.
The function body has no `return` statement, so `returned` is always `none`. -/
structure BSRun where
  printed : BSReport
  returned : Option PricingResult

/-- Embeds the notebook's subfunction `calc_delta`:
Call → `norm.cdf(d1)`, Put → `-norm.cdf(-d1)`, otherwise Python `None`.
Note the code applies no dividend discount factor here. -/
def calc_delta (option_type : String) (d1 : ℝ) : Option ℝ :=
  if option_type = "C" then some (normCdf d1)
  else if option_type = "P" then some (-normCdf (-d1))
  else none

/-- Embeds the notebook's subfunction `calc_gamma`:
`norm.pdf(d1) / (S * sigma * np.sqrt(T))` (no dividend discount factor). -/
def calc_gamma (S sigma T d1 : ℝ) : ℝ :=
  normPdf d1 / (S * sigma * Real.sqrt T)

/-- Embeds the notebook's subfunction `calc_vega`:
`(S * norm.pdf(d1) * np.sqrt(T)) * 0.01` (no dividend discount factor). -/
def calc_vega (S T d1 : ℝ) : ℝ :=
  S * normPdf d1 * Real.sqrt T * 0.01

/-- Embeds the notebook's subfunction `calc_theta`; only the `r*K*exp(-r*T)`
term carries a discount factor, the first two terms carry none. -/
def calc_theta (option_type : String) (r S K T sigma q d1 d2 : ℝ) : Option ℝ :=
  if option_type = "C" then
    some ((-S * normPdf d1 * sigma / (2 * Real.sqrt T) + q * S * normCdf d1
      - r * K * Real.exp (-r * T) * normCdf d2) / 252)
  else if option_type = "P" then
    some ((-S * normPdf d1 * sigma / (2 * Real.sqrt T) - q * S * normCdf (-d1)
      + r * K * Real.exp (-r * T) * normCdf (-d2)) / 252)
  else none

/-- Embeds the notebook's subfunction `calc_rho`:
Call → `(K * T * exp(-r*T) * norm.cdf(d2)) * 0.01`,
Put → `(-K * T * exp(-r*T) * norm.cdf(-d2)) * 0.01`, otherwise `None`. -/
def calc_rho (option_type : String) (r K T d2 : ℝ) : Option ℝ :=
  if option_type = "C" then
    some (K * T * Real.exp (-r * T) * normCdf d2 * 0.01)
  else if option_type = "P" then
    some (-K * T * Real.exp (-r * T) * normCdf (-d2) * 0.01)
  else none

/-- Shallow embedding of the notebook's `BlackScholes(r, S, K, T, sigma,
option_type="C", q=0)`.  It derives `d1`, `d2`, evaluates the subfunctions,
then prints a Call block, a Put block, or (for any other `option_type`)
the message of the `ValueError` it raises and immediately catches.
Python default arguments `option_type="C"` and `q=0` are embedded as Lean
default arguments. -/
def BlackScholes (r S K T sigma : ℝ) (option_type : String := "C") (q : ℝ := 0) : BSRun :=
  let d1 := (Real.log (S / K) + (r - q + sigma ^ 2 / 2) * T) / (sigma * Real.sqrt T)
  let d2 := d1 - sigma * Real.sqrt T
  let delta := calc_delta option_type d1
  let gamma := calc_gamma S sigma T d1
  let vega := calc_vega S T d1
  let theta := calc_theta option_type r S K T sigma q d1 d2
  let rho := calc_rho option_type r K T d2
  if option_type = "C" then
    { printed := BSReport.callReport
        { price := S * Real.exp (-q * T) * normCdf d1 - K * Real.exp (-r * T) * normCdf d2,
          delta := delta, gamma := gamma, vega := vega, theta := theta, rho := rho },
      returned := none }
  else if option_type = "P" then
    { printed := BSReport.putReport
        { price := K * Real.exp (-r * T) * normCdf (-d2) - S * Real.exp (-q * T) * normCdf (-d1),
          delta := delta, gamma := gamma, vega := vega, theta := theta, rho := rho },
      returned := none }
  else
    { printed := BSReport.invalidOptionTypeError, returned := none }

/-- The standardized variable d1 of the notebook, named for reuse in statements. -/
def bs_d1 (r S K T sigma q : ℝ) : ℝ :=
  (Real.log (S / K) + (r - q + sigma ^ 2 / 2) * T) / (sigma * Real.sqrt T)

/-- The standardized variable d2 of the notebook. -/
def bs_d2 (r S K T sigma q : ℝ) : ℝ :=
  bs_d1 r S K T sigma q - sigma * Real.sqrt T

/-- Whether a console report is the error message (rather than a result block). -/
def BSReport.isErrorReport : BSReport → Bool
  | BSReport.callReport _ => false
  | BSReport.putReport _ => false
  | BSReport.invalidOptionTypeError => true

/-- The price shown in a console report, when one is shown. -/
def BSReport.reportedPrice : BSReport → Option ℝ
  | BSReport.callReport res => some res.price
  | BSReport.putReport res => some res.price
  | BSReport.invalidOptionTypeError => none

/-- The delta shown in a console report, when one is shown. -/
def BSReport.reportedDelta : BSReport → Option ℝ
  | BSReport.callReport res => res.delta
  | BSReport.putReport res => res.delta
  | BSReport.invalidOptionTypeError => none

/-- The gamma shown in a console report, when one is shown. -/
def BSReport.reportedGamma : BSReport → Option ℝ
  | BSReport.callReport res => some res.gamma
  | BSReport.putReport res => some res.gamma
  | BSReport.invalidOptionTypeError => none

/-- The vega shown in a console report, when one is shown. -/
def BSReport.reportedVega : BSReport → Option ℝ
  | BSReport.callReport res => some res.vega
  | BSReport.putReport res => some res.vega
  | BSReport.invalidOptionTypeError => none

/-- The theta shown in a console report, when one is shown. -/
def BSReport.reportedTheta : BSReport → Option ℝ
  | BSReport.callReport res => res.theta
  | BSReport.putReport res => res.theta
  | BSReport.invalidOptionTypeError => none

/-- The rho shown in a console report, when one is shown. -/
def BSReport.reportedRho : BSReport → Option ℝ
  | BSReport.callReport res => res.rho
  | BSReport.putReport res => res.rho
  | BSReport.invalidOptionTypeError => none

/-- Unfolding lemma: the full Call report of `BlackScholes`. -/
lemma blackScholes_call (r S K T sigma q : ℝ) :
    BlackScholes r S K T sigma "C" q =
      { printed := BSReport.callReport
          { price := S * Real.exp (-q * T) * normCdf (bs_d1 r S K T sigma q)
              - K * Real.exp (-r * T) * normCdf (bs_d2 r S K T sigma q),
            delta := some (normCdf (bs_d1 r S K T sigma q)),
            gamma := normPdf (bs_d1 r S K T sigma q) / (S * sigma * Real.sqrt T),
            vega := S * normPdf (bs_d1 r S K T sigma q) * Real.sqrt T * 0.01,
            theta := some ((-S * normPdf (bs_d1 r S K T sigma q) * sigma / (2 * Real.sqrt T)
              + q * S * normCdf (bs_d1 r S K T sigma q)
              - r * K * Real.exp (-r * T) * normCdf (bs_d2 r S K T sigma q)) / 252),
            rho := some (K * T * Real.exp (-r * T) * normCdf (bs_d2 r S K T sigma q) * 0.01) },
        returned := none } := by
  simp [BlackScholes, calc_delta, calc_gamma, calc_vega, calc_theta, calc_rho, bs_d1, bs_d2]

/-- Unfolding lemma: the full Put report of `BlackScholes`. -/
lemma blackScholes_put (r S K T sigma q : ℝ) :
    BlackScholes r S K T sigma "P" q =
      { printed := BSReport.putReport
          { price := K * Real.exp (-r * T) * normCdf (-bs_d2 r S K T sigma q)
              - S * Real.exp (-q * T) * normCdf (-bs_d1 r S K T sigma q),
            delta := some (-normCdf (-bs_d1 r S K T sigma q)),
            gamma := normPdf (bs_d1 r S K T sigma q) / (S * sigma * Real.sqrt T),
            vega := S * normPdf (bs_d1 r S K T sigma q) * Real.sqrt T * 0.01,
            theta := some ((-S * normPdf (bs_d1 r S K T sigma q) * sigma / (2 * Real.sqrt T)
              - q * S * normCdf (-bs_d1 r S K T sigma q)
              + r * K * Real.exp (-r * T) * normCdf (-bs_d2 r S K T sigma q)) / 252),
            rho := some (-K * T * Real.exp (-r * T) * normCdf (-bs_d2 r S K T sigma q) * 0.01) },
        returned := none } := by
  simp [BlackScholes, calc_delta, calc_gamma, calc_vega, calc_theta, calc_rho, bs_d1, bs_d2]

/-- Unfolding lemma: any other option type yields only the error message. -/
lemma blackScholes_other (r S K T sigma q : ℝ) (ot : String)
    (hC : ot ≠ "C") (hP : ot ≠ "P") :
    BlackScholes r S K T sigma ot q =
      { printed := BSReport.invalidOptionTypeError, returned := none } := by
  simp [BlackScholes, hC, hP]

/-! ## Claims -/

/-- C1: for every input with S > 0, K > 0, T > 0 and sigma > 0, the Call price
computed by the code equals `S*exp(-qT)*N(d1) - K*exp(-rT)*N(d2)` and the Put
price equals `K*exp(-rT)*N(-d2) - S*exp(-qT)*N(-d1)`, where
`d1 = (ln(S/K) + (r - q + sigma^2/2)*T)/(sigma*sqrt T)` and
`d2 = d1 - sigma*sqrt T`, with N the standard normal cdf. -/
theorem C1_price_formula (r S K T sigma q : ℝ)
    (hS : 0 < S) (hK : 0 < K) (hT : 0 < T) (hsigma : 0 < sigma) :
    (BlackScholes r S K T sigma "C" q).printed.reportedPrice
      = some (S * Real.exp (-q * T) *
          normCdf ((Real.log (S / K) + (r - q + sigma ^ 2 / 2) * T) / (sigma * Real.sqrt T))
        - K * Real.exp (-r * T) *
          normCdf ((Real.log (S / K) + (r - q + sigma ^ 2 / 2) * T) / (sigma * Real.sqrt T)
            - sigma * Real.sqrt T))
    ∧ (BlackScholes r S K T sigma "P" q).printed.reportedPrice
      = some (K * Real.exp (-r * T) *
          normCdf (-((Real.log (S / K) + (r - q + sigma ^ 2 / 2) * T) / (sigma * Real.sqrt T)
            - sigma * Real.sqrt T))
        - S * Real.exp (-q * T) *
          normCdf (-((Real.log (S / K) + (r - q + sigma ^ 2 / 2) * T)
            / (sigma * Real.sqrt T)))) := by
  rw [blackScholes_call, blackScholes_put]
  simp [BSReport.reportedPrice, bs_d1, bs_d2]

/-- Witness for C1 at r=0, S=K=T=sigma=1, q=0. -/
theorem C1_price_formula_witness :
    (BlackScholes 0 1 1 1 1 "C" 0).printed.reportedPrice
      = some (1 * Real.exp (-0 * 1) *
          normCdf ((Real.log (1 / 1) + (0 - 0 + 1 ^ 2 / 2) * 1) / (1 * Real.sqrt 1))
        - 1 * Real.exp (-0 * 1) *
          normCdf ((Real.log (1 / 1) + (0 - 0 + 1 ^ 2 / 2) * 1) / (1 * Real.sqrt 1)
            - 1 * Real.sqrt 1))
    ∧ (BlackScholes 0 1 1 1 1 "P" 0).printed.reportedPrice
      = some (1 * Real.exp (-0 * 1) *
          normCdf (-((Real.log (1 / 1) + (0 - 0 + 1 ^ 2 / 2) * 1) / (1 * Real.sqrt 1)
            - 1 * Real.sqrt 1))
        - 1 * Real.exp (-0 * 1) *
          normCdf (-((Real.log (1 / 1) + (0 - 0 + 1 ^ 2 / 2) * 1) / (1 * Real.sqrt 1)))) :=
  C1_price_formula 0 1 1 1 1 0 one_pos one_pos one_pos one_pos

/-- C2 counterexample: with timeToExpiry = 0 (spot 1, strike 1, vol 1) the code
does not report any error: it prints a normal Call result block.  The code has
no InvalidInput error path at all and performs no validation before dividing. -/
theorem C2_no_invalid_input_error :
    (BlackScholes 0 1 1 0 1 "C" 0).printed.isErrorReport = false
    ∧ (BlackScholes 0 1 1 0 1 "C" 0).printed.reportedPrice.isSome = true := by
  rw [blackScholes_call]
  exact ⟨rfl, rfl⟩

/-- C2 amended: the code performs no input validation: for any input with
T ≤ 0, sigma ≤ 0, S ≤ 0 or K ≤ 0 and a supported option type, it still prints
a normal result block (computed from the formulas) and reports no error. -/
theorem C2_amended_no_validation (r S K T sigma q : ℝ)
    (hbad : T ≤ 0 ∨ sigma ≤ 0 ∨ S ≤ 0 ∨ K ≤ 0)
    (ot : String) (hot : ot = "C" ∨ ot = "P") :
    (BlackScholes r S K T sigma ot q).printed.isErrorReport = false
    ∧ (BlackScholes r S K T sigma ot q).printed.reportedPrice.isSome = true := by
  rcases hot with h | h <;> subst h
  · rw [blackScholes_call]; exact ⟨rfl, rfl⟩
  · rw [blackScholes_put]; exact ⟨rfl, rfl⟩

/-- Witness for the amended C2 at sigma = -1 with a Put option. -/
theorem C2_amended_no_validation_witness :
    (BlackScholes 0 1 1 1 (-1) "P" 0).printed.isErrorReport = false
    ∧ (BlackScholes 0 1 1 1 (-1) "P" 0).printed.reportedPrice.isSome = true :=
  C2_amended_no_validation 0 1 1 1 (-1) 0
    (Or.inr (Or.inl (by norm_num))) "P" (Or.inr rfl)

/-- C6: for an option type that is neither "C" nor "P" the code reports the
UnsupportedOptionType error (the message of the ValueError it raises, catches
and prints) and produces no result values at all, partial or otherwise;
the Python return value is None as for every call. -/
theorem C6_unsupported_option_type (r S K T sigma q : ℝ) (ot : String)
    (hC : ot ≠ "C") (hP : ot ≠ "P") :
    (BlackScholes r S K T sigma ot q).printed = BSReport.invalidOptionTypeError
    ∧ (BlackScholes r S K T sigma ot q).returned = none := by
  rw [blackScholes_other r S K T sigma q ot hC hP]
  exact ⟨rfl, rfl⟩

/-- Witness for C6 with option type "X". -/
theorem C6_unsupported_option_type_witness :
    (BlackScholes 0 1 1 1 1 "X" 0).printed = BSReport.invalidOptionTypeError
    ∧ (BlackScholes 0 1 1 1 1 "X" 0).returned = none :=
  C6_unsupported_option_type 0 1 1 1 1 0 "X" (by decide) (by decide)

/-- C7 counterexample: at the notebook's reference input the function returns
None to its in-process caller, not a PricingResult; the result values reach
the caller only through console printing (an I/O side effect). -/
theorem C7_returns_none :
    (BlackScholes 0.05 50 48 0.5 0.4 "C" 0.02).returned = none := by
  rw [blackScholes_call]

/-- C7 amended: for every input with a supported option type the code prints a
complete result block (price and all five Greeks present) and returns None;
the console print, not the return value, carries the result. -/
theorem C7_amended_prints_complete_result (r S K T sigma q : ℝ)
    (ot : String) (hot : ot = "C" ∨ ot = "P") :
    (BlackScholes r S K T sigma ot q).returned = none
    ∧ (BlackScholes r S K T sigma ot q).printed.reportedPrice.isSome = true
    ∧ (BlackScholes r S K T sigma ot q).printed.reportedDelta.isSome = true
    ∧ (BlackScholes r S K T sigma ot q).printed.reportedGamma.isSome = true
    ∧ (BlackScholes r S K T sigma ot q).printed.reportedVega.isSome = true
    ∧ (BlackScholes r S K T sigma ot q).printed.reportedTheta.isSome = true
    ∧ (BlackScholes r S K T sigma ot q).printed.reportedRho.isSome = true := by
  rcases hot with h | h <;> subst h
  · rw [blackScholes_call]
    exact ⟨rfl, rfl, rfl, rfl, rfl, rfl, rfl⟩
  · rw [blackScholes_put]
    exact ⟨rfl, rfl, rfl, rfl, rfl, rfl, rfl⟩

/-- Witness for the amended C7 at the notebook's reference Call input. -/
theorem C7_amended_prints_complete_result_witness :
    (BlackScholes 0.05 50 48 0.5 0.4 "C" 0.02).returned = none
    ∧ (BlackScholes 0.05 50 48 0.5 0.4 "C" 0.02).printed.reportedPrice.isSome = true
    ∧ (BlackScholes 0.05 50 48 0.5 0.4 "C" 0.02).printed.reportedDelta.isSome = true
    ∧ (BlackScholes 0.05 50 48 0.5 0.4 "C" 0.02).printed.reportedGamma.isSome = true
    ∧ (BlackScholes 0.05 50 48 0.5 0.4 "C" 0.02).printed.reportedVega.isSome = true
    ∧ (BlackScholes 0.05 50 48 0.5 0.4 "C" 0.02).printed.reportedTheta.isSome = true
    ∧ (BlackScholes 0.05 50 48 0.5 0.4 "C" 0.02).printed.reportedRho.isSome = true :=
  C7_amended_prints_complete_result 0.05 50 48 0.5 0.4 0.02 "C" (Or.inl rfl)

/-- C8: put-call parity: for every valid input the Call and Put prices printed
from the same parameters satisfy
`callPrice - putPrice = S*exp(-qT) - K*exp(-rT)` exactly over real
arithmetic. -/
theorem C8_put_call_parity (r S K T sigma q : ℝ)
    (hS : 0 < S) (hK : 0 < K) (hT : 0 < T) (hsigma : 0 < sigma) :
    (BlackScholes r S K T sigma "C" q).printed.reportedPrice.isSome = true
    ∧ (BlackScholes r S K T sigma "P" q).printed.reportedPrice.isSome = true
    ∧ (BlackScholes r S K T sigma "C" q).printed.reportedPrice.getD 0
        - (BlackScholes r S K T sigma "P" q).printed.reportedPrice.getD 0
      = S * Real.exp (-q * T) - K * Real.exp (-r * T) := by
  rw [blackScholes_call, blackScholes_put]
  refine ⟨rfl, rfl, ?_⟩
  simp only [BSReport.reportedPrice, Option.getD_some]
  have h1 := normCdf_add_normCdf_neg (bs_d1 r S K T sigma q)
  have h2 := normCdf_add_normCdf_neg (bs_d2 r S K T sigma q)
  linear_combination (S * Real.exp (-q * T)) * h1 - (K * Real.exp (-r * T)) * h2

/-- Witness for C8 at r=0, S=K=T=sigma=1, q=0. -/
theorem C8_put_call_parity_witness :
    (BlackScholes 0 1 1 1 1 "C" 0).printed.reportedPrice.isSome = true
    ∧ (BlackScholes 0 1 1 1 1 "P" 0).printed.reportedPrice.isSome = true
    ∧ (BlackScholes 0 1 1 1 1 "C" 0).printed.reportedPrice.getD 0
        - (BlackScholes 0 1 1 1 1 "P" 0).printed.reportedPrice.getD 0
      = 1 * Real.exp (-0 * 1) - 1 * Real.exp (-0 * 1) :=
  C8_put_call_parity 0 1 1 1 1 0 one_pos one_pos one_pos one_pos

/-- C10: calling `BlackScholes` with `option_type` and `q` omitted is identical
to calling it with `option_type = "C"` and `q = 0`: the defaults silently price
a Call option with zero dividend yield. -/
theorem C10_default_arguments (r S K T sigma : ℝ) :
    BlackScholes r S K T sigma = BlackScholes r S K T sigma "C" 0 := rfl

/-! ## Numeric bounds used to separate the code's Greeks from the documented
formulas at the notebook's reference input
`r=0.05, S=50, K=48, T=0.5, sigma=0.4, q=0.02`. -/

lemma sqrt_half_lb : (0.70710678 : ℝ) ≤ Real.sqrt 0.5 :=
  (Real.le_sqrt' (by norm_num)).mpr (by norm_num)

lemma sqrt_half_ub : Real.sqrt 0.5 ≤ 0.70710679 :=
  ((Real.sqrt_lt' (by norm_num)).mpr (by norm_num)).le

lemma sqrt_two_pi_lb : (2.506628 : ℝ) ≤ Real.sqrt (2 * Real.pi) :=
  (Real.le_sqrt' (by norm_num)).mpr (by nlinarith [Real.pi_gt_d6])

lemma sqrt_two_pi_ub : Real.sqrt (2 * Real.pi) ≤ 2.50663 :=
  ((Real.sqrt_lt' (by norm_num)).mpr (by nlinarith [Real.pi_lt_d6])).le

lemma exp_half_lt : Real.exp (1/2) < 5/3 := by
  have h2 : Real.exp (1/2 : ℝ) * Real.exp (1/2 : ℝ) = Real.exp 1 := by
    rw [← Real.exp_add]; norm_num
  have h := Real.exp_one_lt_d9
  nlinarith [Real.exp_pos (1/2 : ℝ)]

lemma exp_neg_half_gt : (0.6 : ℝ) < Real.exp (-(1/2)) := by
  have h := exp_half_lt
  have hp := Real.exp_pos (1/2 : ℝ)
  rw [Real.exp_neg]
  have h3 : Real.exp (1/2 : ℝ) * (Real.exp (1/2 : ℝ))⁻¹ = 1 :=
    mul_inv_cancel₀ (ne_of_gt hp)
  nlinarith [inv_pos.mpr hp]

/-- Lower bound for the standard normal density on `[-1, 1]`. -/
lemma normPdf_lb {x : ℝ} (hx : x ^ 2 ≤ 1) : (0.239 : ℝ) ≤ normPdf x := by
  rw [normPdf]
  have hE : (0.6 : ℝ) ≤ Real.exp (-(x ^ 2 / 2)) := by
    have h1 : Real.exp (-(1/2 : ℝ)) ≤ Real.exp (-(x ^ 2 / 2)) :=
      Real.exp_le_exp.mpr (by linarith)
    linarith [exp_neg_half_gt]
  have hs0 : 0 < Real.sqrt (2 * Real.pi) := Real.sqrt_pos.mpr (by positivity)
  calc (0.239 : ℝ) ≤ 0.6 / 2.50663 := by norm_num
  _ ≤ Real.exp (-(x ^ 2 / 2)) / Real.sqrt (2 * Real.pi) := by
      gcongr
      exact sqrt_two_pi_ub

lemma d1_ref_pos : 0 < bs_d1 0.05 50 48 0.5 0.4 0.02 := by
  rw [bs_d1]
  have hden : 0 < 0.4 * Real.sqrt 0.5 := by positivity
  have hlog : 0 < Real.log (50 / 48) := Real.log_pos (by norm_num)
  exact div_pos (by nlinarith) hden

lemma d1_ref_ub : bs_d1 0.05 50 48 0.5 0.4 0.02 ≤ 0.35 := by
  rw [bs_d1]
  have hden : 0 < 0.4 * Real.sqrt 0.5 := by positivity
  have hlog : Real.log (50 / 48) ≤ 50 / 48 - 1 :=
    Real.log_le_sub_one_of_pos (by norm_num)
  rw [div_le_iff hden]
  nlinarith [sqrt_half_lb]

lemma d1_ref_sq_le_one : (bs_d1 0.05 50 48 0.5 0.4 0.02) ^ 2 ≤ 1 := by
  nlinarith [d1_ref_pos, d1_ref_ub]

/-- C3 (code bug): at the notebook's reference input the Call delta printed by
the code is `norm.cdf(d1)` with no dividend discount factor, and that value
differs from the documented `exp(-qT) * N(d1)`; likewise the Put delta is
`-norm.cdf(-d1)`, differing from the documented `-exp(-qT) * N(-d1)`. -/
theorem C3_delta_code_bug :
    ((BlackScholes 0.05 50 48 0.5 0.4 "C" 0.02).printed.reportedDelta
        = some (normCdf (bs_d1 0.05 50 48 0.5 0.4 0.02))
      ∧ normCdf (bs_d1 0.05 50 48 0.5 0.4 0.02)
        ≠ Real.exp (-0.02 * 0.5) * normCdf (bs_d1 0.05 50 48 0.5 0.4 0.02))
    ∧ ((BlackScholes 0.05 50 48 0.5 0.4 "P" 0.02).printed.reportedDelta
        = some (-normCdf (-bs_d1 0.05 50 48 0.5 0.4 0.02))
      ∧ -normCdf (-bs_d1 0.05 50 48 0.5 0.4 0.02)
        ≠ -(Real.exp (-0.02 * 0.5) * normCdf (-bs_d1 0.05 50 48 0.5 0.4 0.02))) := by
  have hexp : Real.exp (-0.02 * 0.5) < 1 := by
    rw [Real.exp_lt_one_iff]; norm_num
  constructor
  · refine ⟨by rw [blackScholes_call]; rfl, fun h => ?_⟩
    have hpos := normCdf_pos (bs_d1 0.05 50 48 0.5 0.4 0.02)
    nlinarith [mul_pos hpos (sub_pos.mpr hexp)]
  · refine ⟨by rw [blackScholes_put]; rfl, fun h => ?_⟩
    have hpos := normCdf_pos (-bs_d1 0.05 50 48 0.5 0.4 0.02)
    nlinarith [mul_pos hpos (sub_pos.mpr hexp)]

/-- C4 (code bug): at the notebook's reference input the code's Gamma is
`norm.pdf(d1)/(S*sigma*sqrt(T))` and its Vega is
`S*norm.pdf(d1)*sqrt(T)*0.01`, both without the dividend discount factor,
and each differs from the documented formula carrying `exp(-qT)`.  The two
values are, as the claim also says, identical for Call and Put. -/
theorem C4_gamma_vega_code_bug :
    ((BlackScholes 0.05 50 48 0.5 0.4 "C" 0.02).printed.reportedGamma
        = some (normPdf (bs_d1 0.05 50 48 0.5 0.4 0.02) / (50 * 0.4 * Real.sqrt 0.5))
      ∧ normPdf (bs_d1 0.05 50 48 0.5 0.4 0.02) / (50 * 0.4 * Real.sqrt 0.5)
        ≠ Real.exp (-0.02 * 0.5) * normPdf (bs_d1 0.05 50 48 0.5 0.4 0.02)
            / (50 * 0.4 * Real.sqrt 0.5))
    ∧ ((BlackScholes 0.05 50 48 0.5 0.4 "C" 0.02).printed.reportedVega
        = some (50 * normPdf (bs_d1 0.05 50 48 0.5 0.4 0.02) * Real.sqrt 0.5 * 0.01)
      ∧ 50 * normPdf (bs_d1 0.05 50 48 0.5 0.4 0.02) * Real.sqrt 0.5 * 0.01
        ≠ 0.01 * 50 * Real.exp (-0.02 * 0.5) * normPdf (bs_d1 0.05 50 48 0.5 0.4 0.02)
            * Real.sqrt 0.5)
    ∧ (BlackScholes 0.05 50 48 0.5 0.4 "P" 0.02).printed.reportedGamma
        = (BlackScholes 0.05 50 48 0.5 0.4 "C" 0.02).printed.reportedGamma
    ∧ (BlackScholes 0.05 50 48 0.5 0.4 "P" 0.02).printed.reportedVega
        = (BlackScholes 0.05 50 48 0.5 0.4 "C" 0.02).printed.reportedVega := by
  have hexp : Real.exp (-0.02 * 0.5) < 1 := by
    rw [Real.exp_lt_one_iff]; norm_num
  have hP := normPdf_pos (bs_d1 0.05 50 48 0.5 0.4 0.02)
  have hs : (0 : ℝ) < Real.sqrt 0.5 := Real.sqrt_pos.mpr (by norm_num)
  refine ⟨⟨by rw [blackScholes_call]; rfl, fun h => ?_⟩,
    ⟨by rw [blackScholes_call]; rfl, fun h => ?_⟩,
    by rw [blackScholes_call, blackScholes_put]; rfl,
    by rw [blackScholes_call, blackScholes_put]; rfl⟩
  · have hd : (0 : ℝ) < 50 * 0.4 * Real.sqrt 0.5 := by positivity
    rw [div_eq_div_iff hd.ne' hd.ne'] at h
    nlinarith [mul_pos (mul_pos hP hs) (sub_pos.mpr hexp)]
  · nlinarith [mul_pos (mul_pos hP hs) (sub_pos.mpr hexp)]

/-! ## Rigorous enclosures of the standard normal cdf and of `exp` near 0,
used for the reference-scenario claim. -/

/-- Degree-3 Taylor enclosure of `exp (-v)` on `[0, 1]`, with the remainder
bound `5 v^4 / 96` from the library's exponential series estimate. -/
lemma exp_neg_enclosure {v : ℝ} (h0 : 0 ≤ v) (h1 : v ≤ 1) :
    1 - v + v ^ 2 / 2 - v ^ 3 / 6 - 5 * v ^ 4 / 96 ≤ Real.exp (-v)
    ∧ Real.exp (-v) ≤ 1 - v + v ^ 2 / 2 - v ^ 3 / 6 + 5 * v ^ 4 / 96 := by
  have hx : |(-v : ℝ)| ≤ 1 := by rw [abs_neg, abs_of_nonneg h0]; exact h1
  have h := Real.exp_bound hx (by norm_num : 0 < 4)
  rw [abs_neg, abs_of_nonneg h0] at h
  have hsum : (∑ m ∈ Finset.range 4, (-v) ^ m / m.factorial)
      = 1 - v + v ^ 2 / 2 - v ^ 3 / 6 := by
    simp [Finset.sum_range_succ, Nat.factorial]
    ring
  rw [hsum] at h
  norm_num [Nat.factorial] at h
  have habs := abs_le.mp h
  constructor
  · nlinarith [habs.1]
  · nlinarith [habs.2]

/-- Closed form for the interval integral of an even polynomial of degree 8. -/
lemma integral_poly8 (b c0 c2 c4 c6 c8 : ℝ) :
    (∫ t in (0:ℝ)..b, (c0 + c2 * t ^ 2 + c4 * t ^ 4 + c6 * t ^ 6 + c8 * t ^ 8))
      = c0 * b + c2 * b ^ 3 / 3 + c4 * b ^ 5 / 5 + c6 * b ^ 7 / 7 + c8 * b ^ 9 / 9 := by
  have hderiv : ∀ t ∈ uIcc (0:ℝ) b,
      HasDerivAt (fun u : ℝ => c0 * u + c2 * u ^ 3 / 3 + c4 * u ^ 5 / 5
          + c6 * u ^ 7 / 7 + c8 * u ^ 9 / 9)
        (c0 + c2 * t ^ 2 + c4 * t ^ 4 + c6 * t ^ 6 + c8 * t ^ 8) t := by
    intro t _
    have h1 := (((((hasDerivAt_id t).const_mul c0).add
      (((hasDerivAt_pow 3 t).const_mul c2).div_const 3)).add
      (((hasDerivAt_pow 5 t).const_mul c4).div_const 5)).add
      (((hasDerivAt_pow 7 t).const_mul c6).div_const 7)).add
      (((hasDerivAt_pow 9 t).const_mul c8).div_const 9)
    convert h1 using 1
    push_cast
    ring
  have hint : IntervalIntegrable
      (fun t : ℝ => c0 + c2 * t ^ 2 + c4 * t ^ 4 + c6 * t ^ 6 + c8 * t ^ 8)
      MeasureTheory.volume 0 b := by
    apply Continuous.intervalIntegrable
    continuity
  rw [intervalIntegral.integral_eq_sub_of_hasDerivAt hderiv hint]
  ring

lemma continuous_gauss_kernel : Continuous fun t : ℝ => Real.exp (-(t ^ 2 / 2)) := by
  have h : Continuous fun t : ℝ => -(t ^ 2 / 2) := by continuity
  exact Real.continuous_exp.comp h

/-- Two-sided polynomial bounds for the Gaussian integral over `[0, b]`,
`0 ≤ b ≤ 1`, obtained by integrating the Taylor enclosure of the kernel. -/
lemma gauss_integral_bounds {b : ℝ} (hb0 : 0 ≤ b) (hb1 : b ≤ 1) :
    b - b ^ 3 / 6 + b ^ 5 / 40 - b ^ 7 / 336 - 5 * b ^ 9 / 13824
      ≤ (∫ t in (0:ℝ)..b, Real.exp (-(t ^ 2 / 2)))
    ∧ (∫ t in (0:ℝ)..b, Real.exp (-(t ^ 2 / 2)))
      ≤ b - b ^ 3 / 6 + b ^ 5 / 40 - b ^ 7 / 336 + 5 * b ^ 9 / 13824 := by
  have hexpint : IntervalIntegrable (fun t : ℝ => Real.exp (-(t ^ 2 / 2)))
      MeasureTheory.volume 0 b :=
    continuous_gauss_kernel.intervalIntegrable 0 b
  have hptws : ∀ t ∈ Icc (0:ℝ) b,
      (1 - t ^ 2 / 2 + (t ^ 2 / 2) ^ 2 / 2 - (t ^ 2 / 2) ^ 3 / 6 - 5 * (t ^ 2 / 2) ^ 4 / 96
          ≤ Real.exp (-(t ^ 2 / 2)))
      ∧ (Real.exp (-(t ^ 2 / 2))
          ≤ 1 - t ^ 2 / 2 + (t ^ 2 / 2) ^ 2 / 2 - (t ^ 2 / 2) ^ 3 / 6
            + 5 * (t ^ 2 / 2) ^ 4 / 96) := by
    intro t ht
    have h0v : (0:ℝ) ≤ t ^ 2 / 2 := by positivity
    have h1v : t ^ 2 / 2 ≤ 1 := by nlinarith [ht.1, ht.2]
    exact exp_neg_enclosure h0v h1v
  constructor
  · have hpolyint : IntervalIntegrable
        (fun t : ℝ => 1 + (-(1/2)) * t ^ 2 + (1/8) * t ^ 4
          + (-(1/48)) * t ^ 6 + (-(5/1536)) * t ^ 8) MeasureTheory.volume 0 b := by
      apply Continuous.intervalIntegrable
      continuity
    have hmono := intervalIntegral.integral_mono_on hb0 hpolyint hexpint
      (fun t ht => by nlinarith [(hptws t ht).1])
    have heval := integral_poly8 b 1 (-(1/2)) (1/8) (-(1/48)) (-(5/1536))
    rw [heval] at hmono
    linarith
  · have hpolyint : IntervalIntegrable
        (fun t : ℝ => 1 + (-(1/2)) * t ^ 2 + (1/8) * t ^ 4
          + (-(1/48)) * t ^ 6 + (5/1536) * t ^ 8) MeasureTheory.volume 0 b := by
      apply Continuous.intervalIntegrable
      continuity
    have hmono := intervalIntegral.integral_mono_on hb0 hexpint hpolyint
      (fun t ht => by nlinarith [(hptws t ht).2])
    have heval := integral_poly8 b 1 (-(1/2)) (1/8) (-(1/48)) (5/1536)
    rw [heval] at hmono
    linarith

lemma normCdf_eq_integral (b : ℝ) :
    normCdf b = 1/2 + (∫ t in (0:ℝ)..b, Real.exp (-(t ^ 2 / 2))) / Real.sqrt (2 * Real.pi) := by
  have h := normCdf_sub_normCdf 0 b
  rw [normCdf_zero] at h
  have h2 : (∫ t in (0:ℝ)..b, normPdf t)
      = (∫ t in (0:ℝ)..b, Real.exp (-(t ^ 2 / 2))) / Real.sqrt (2 * Real.pi) := by
    simp only [normPdf]
    exact intervalIntegral.integral_div (Real.sqrt (2 * Real.pi))
      (fun t => Real.exp (-(t ^ 2 / 2)))
  rw [h2] at h
  linarith

/-- Rational lower bound for `normCdf` at a point of `[0, 1]` whose lower
Taylor polynomial is nonnegative. -/
lemma normCdf_poly_lb {b : ℝ} (hb0 : 0 ≤ b) (hb1 : b ≤ 1)
    (hpoly : 0 ≤ b - b ^ 3 / 6 + b ^ 5 / 40 - b ^ 7 / 336 - 5 * b ^ 9 / 13824) :
    1/2 + (b - b ^ 3 / 6 + b ^ 5 / 40 - b ^ 7 / 336 - 5 * b ^ 9 / 13824) / 2.50663
      ≤ normCdf b := by
  rw [normCdf_eq_integral]
  have hg := (gauss_integral_bounds hb0 hb1).1
  have hs0 : 0 < Real.sqrt (2 * Real.pi) := Real.sqrt_pos.mpr (by positivity)
  have hcross : (b - b ^ 3 / 6 + b ^ 5 / 40 - b ^ 7 / 336 - 5 * b ^ 9 / 13824) / 2.50663
      ≤ (∫ t in (0:ℝ)..b, Real.exp (-(t ^ 2 / 2))) / Real.sqrt (2 * Real.pi) := by
    rw [div_le_div_iff (by norm_num) hs0]
    nlinarith [mul_nonneg hpoly (sub_nonneg.mpr sqrt_two_pi_ub), hg]
  linarith

/-- Rational upper bound for `normCdf` at a point of `[0, 1]` whose lower
Taylor polynomial is nonnegative. -/
lemma normCdf_poly_ub {b : ℝ} (hb0 : 0 ≤ b) (hb1 : b ≤ 1)
    (hpoly : 0 ≤ b - b ^ 3 / 6 + b ^ 5 / 40 - b ^ 7 / 336 - 5 * b ^ 9 / 13824) :
    normCdf b
      ≤ 1/2 + (b - b ^ 3 / 6 + b ^ 5 / 40 - b ^ 7 / 336 + 5 * b ^ 9 / 13824) / 2.506628 := by
  rw [normCdf_eq_integral]
  have hg := (gauss_integral_bounds hb0 hb1).2
  have hs0 : 0 < Real.sqrt (2 * Real.pi) := Real.sqrt_pos.mpr (by positivity)
  have hup0 : 0 ≤ b - b ^ 3 / 6 + b ^ 5 / 40 - b ^ 7 / 336 + 5 * b ^ 9 / 13824 := by
    nlinarith [pow_nonneg hb0 9]
  have hcross : (∫ t in (0:ℝ)..b, Real.exp (-(t ^ 2 / 2))) / Real.sqrt (2 * Real.pi)
      ≤ (b - b ^ 3 / 6 + b ^ 5 / 40 - b ^ 7 / 336 + 5 * b ^ 9 / 13824) / 2.506628 := by
    rw [div_le_div_iff hs0 (by norm_num)]
    nlinarith [mul_nonneg hup0 (sub_nonneg.mpr sqrt_two_pi_lb), hg]
  linarith

/-- Series bounds for `log (50/48) = log (25/24)`. -/
lemma log_ref_bounds :
    (0.040821989 : ℝ) ≤ Real.log (50/48) ∧ Real.log (50/48) ≤ 0.040822001 := by
  have hneg : (-1/24 : ℝ) < 0 := by norm_num
  have habs : |(-1/24 : ℝ)| = 1/24 := by rw [abs_of_neg hneg]; norm_num
  have hxlt : |(-1/24 : ℝ)| < 1 := by rw [habs]; norm_num
  have h := Real.abs_log_sub_add_sum_range_le hxlt 5
  rw [habs] at h
  norm_num [Finset.sum_range_succ] at h
  have h2 := abs_le.mp h
  have hlog : Real.log (50/48) = Real.log (25/24) := by norm_num
  rw [hlog]
  constructor <;> linarith [h2.1, h2.2]

/-- Tight bounds for the standardized variable d1 at the reference input. -/
lemma d1_ref_tight :
    (0.33878188 : ℝ) ≤ bs_d1 0.05 50 48 0.5 0.4 0.02
    ∧ bs_d1 0.05 50 48 0.5 0.4 0.02 ≤ 0.33878195 := by
  rw [bs_d1]
  have hl := log_ref_bounds
  have hden : (0:ℝ) < 0.4 * Real.sqrt 0.5 := by positivity
  constructor
  · rw [le_div_iff hden]
    nlinarith [hl.1, sqrt_half_ub]
  · rw [div_le_iff hden]
    nlinarith [hl.2, sqrt_half_lb]

/-- Tight bounds for the standardized variable d2 at the reference input. -/
lemma d2_ref_tight :
    (0.05593916 : ℝ) ≤ bs_d2 0.05 50 48 0.5 0.4 0.02
    ∧ bs_d2 0.05 50 48 0.5 0.4 0.02 ≤ 0.05593924 := by
  rw [bs_d2]
  have hd := d1_ref_tight
  constructor <;> nlinarith [hd.1, hd.2, sqrt_half_lb, sqrt_half_ub]

set_option maxHeartbeats 1000000 in
/-- Bounds for N(d1) at the reference input. -/
lemma N1_bounds :
    (0.63261286 : ℝ) ≤ normCdf (bs_d1 0.05 50 48 0.5 0.4 0.02)
    ∧ normCdf (bs_d1 0.05 50 48 0.5 0.4 0.02) ≤ 0.63261302 := by
  have hd := d1_ref_tight
  constructor
  · have h1 := normCdf_poly_lb (show (0:ℝ) ≤ 0.33878188 by norm_num)
      (by norm_num) (by norm_num)
    have h2 := normCdf_mono hd.1
    have h0 : (0.63261286 : ℝ) ≤ 1/2 + ((0.33878188 : ℝ) - 0.33878188 ^ 3 / 6
        + 0.33878188 ^ 5 / 40 - 0.33878188 ^ 7 / 336 - 5 * 0.33878188 ^ 9 / 13824)
          / 2.50663 := by norm_num
    linarith
  · have h1 := normCdf_poly_ub (show (0:ℝ) ≤ 0.33878195 by norm_num)
      (by norm_num) (by norm_num)
    have h2 := normCdf_mono hd.2
    have h0 : 1/2 + ((0.33878195 : ℝ) - 0.33878195 ^ 3 / 6
        + 0.33878195 ^ 5 / 40 - 0.33878195 ^ 7 / 336 + 5 * 0.33878195 ^ 9 / 13824)
          / 2.506628 ≤ 0.63261302 := by norm_num
    linarith

set_option maxHeartbeats 1000000 in
/-- Bounds for N(d2) at the reference input. -/
lemma N2_bounds :
    (0.52230484 : ℝ) ≤ normCdf (bs_d2 0.05 50 48 0.5 0.4 0.02)
    ∧ normCdf (bs_d2 0.05 50 48 0.5 0.4 0.02) ≤ 0.52230490 := by
  have hd := d2_ref_tight
  constructor
  · have h1 := normCdf_poly_lb (show (0:ℝ) ≤ 0.05593916 by norm_num)
      (by norm_num) (by norm_num)
    have h2 := normCdf_mono hd.1
    have h0 : (0.52230484 : ℝ) ≤ 1/2 + ((0.05593916 : ℝ) - 0.05593916 ^ 3 / 6
        + 0.05593916 ^ 5 / 40 - 0.05593916 ^ 7 / 336 - 5 * 0.05593916 ^ 9 / 13824)
          / 2.50663 := by norm_num
    linarith
  · have h1 := normCdf_poly_ub (show (0:ℝ) ≤ 0.05593924 by norm_num)
      (by norm_num) (by norm_num)
    have h2 := normCdf_mono hd.2
    have h0 : 1/2 + ((0.05593924 : ℝ) - 0.05593924 ^ 3 / 6
        + 0.05593924 ^ 5 / 40 - 0.05593924 ^ 7 / 336 + 5 * 0.05593924 ^ 9 / 13824)
          / 2.506628 ≤ 0.52230490 := by norm_num
    linarith

/-- Bounds for the dividend discount factor `exp(-q T) = exp(-0.01)`. -/
lemma E1_bounds :
    (0.99004983 : ℝ) ≤ Real.exp (-0.02 * 0.5) ∧ Real.exp (-0.02 * 0.5) ≤ 0.99004984 := by
  have heq : (-0.02 * 0.5 : ℝ) = -(0.01) := by norm_num
  rw [heq]
  have h := exp_neg_enclosure (show (0:ℝ) ≤ 0.01 by norm_num) (by norm_num)
  constructor <;> nlinarith [h.1, h.2]

/-- Bounds for the rate discount factor `exp(-r T) = exp(-0.025)`. -/
lemma E2_bounds :
    (0.97530987 : ℝ) ≤ Real.exp (-0.05 * 0.5) ∧ Real.exp (-0.05 * 0.5) ≤ 0.97530992 := by
  have heq : (-0.05 * 0.5 : ℝ) = -(0.025) := by norm_num
  rw [heq]
  have h := exp_neg_enclosure (show (0:ℝ) ≤ 0.025 by norm_num) (by norm_num)
  constructor <;> nlinarith [h.1, h.2]

set_option maxHeartbeats 1000000 in
/-- Bounds for `exp(-(d1^2/2))` at the reference input. -/
lemma exp_d1_sq_bounds :
    (0.94422794 : ℝ) ≤ Real.exp (-(bs_d1 0.05 50 48 0.5 0.4 0.02 ^ 2 / 2))
    ∧ Real.exp (-(bs_d1 0.05 50 48 0.5 0.4 0.02 ^ 2 / 2)) ≤ 0.94422910 := by
  have hd := d1_ref_tight
  have hsq_lb : (0.33878188 : ℝ) ^ 2 / 2 ≤ bs_d1 0.05 50 48 0.5 0.4 0.02 ^ 2 / 2 := by
    nlinarith [hd.1, hd.2]
  have hsq_ub : bs_d1 0.05 50 48 0.5 0.4 0.02 ^ 2 / 2 ≤ (0.33878195 : ℝ) ^ 2 / 2 := by
    nlinarith [hd.1, hd.2]
  constructor
  · have hmono : Real.exp (-((0.33878195 : ℝ) ^ 2 / 2))
        ≤ Real.exp (-(bs_d1 0.05 50 48 0.5 0.4 0.02 ^ 2 / 2)) :=
      Real.exp_le_exp.mpr (by linarith)
    have he := (exp_neg_enclosure (show (0:ℝ) ≤ (0.33878195 : ℝ) ^ 2 / 2 by norm_num)
      (by norm_num)).1
    nlinarith [hmono, he]
  · have hmono : Real.exp (-(bs_d1 0.05 50 48 0.5 0.4 0.02 ^ 2 / 2))
        ≤ Real.exp (-((0.33878188 : ℝ) ^ 2 / 2)) :=
      Real.exp_le_exp.mpr (by linarith)
    have he := (exp_neg_enclosure (show (0:ℝ) ≤ (0.33878188 : ℝ) ^ 2 / 2 by norm_num)
      (by norm_num)).2
    nlinarith [hmono, he]

/-- Bounds for the density value `N'(d1)` at the reference input. -/
lemma P1_bounds :
    (0.37668985 : ℝ) ≤ normPdf (bs_d1 0.05 50 48 0.5 0.4 0.02)
    ∧ normPdf (bs_d1 0.05 50 48 0.5 0.4 0.02) ≤ 0.37669495 := by
  rw [normPdf]
  have hx := exp_d1_sq_bounds
  have hs0 : 0 < Real.sqrt (2 * Real.pi) := Real.sqrt_pos.mpr (by positivity)
  constructor
  · rw [le_div_iff hs0]
    nlinarith [sqrt_two_pi_ub, hx.1]
  · rw [div_le_iff hs0]
    nlinarith [sqrt_two_pi_lb, hx.2]

set_option maxHeartbeats 2000000 in
/-- C9: at the reference input `r=0.05, S=50, K=48, T=0.5, sigma=0.4, Call,
q=0.02` the values printed by the code are, within 1e-4 absolute tolerance,
price 6.86428, delta 0.63261, gamma 0.02664, vega 0.13318, theta -0.02348,
rho 0.12226 (proved by rigorous enclosures of the log, sqrt, exp and Gaussian
cdf values over real arithmetic). -/
theorem C9_reference_scenario :
    |(BlackScholes 0.05 50 48 0.5 0.4 "C" 0.02).printed.reportedPrice.getD 0 - 6.86428| < 1e-4
    ∧ |(BlackScholes 0.05 50 48 0.5 0.4 "C" 0.02).printed.reportedDelta.getD 0 - 0.63261| < 1e-4
    ∧ |(BlackScholes 0.05 50 48 0.5 0.4 "C" 0.02).printed.reportedGamma.getD 0 - 0.02664| < 1e-4
    ∧ |(BlackScholes 0.05 50 48 0.5 0.4 "C" 0.02).printed.reportedVega.getD 0 - 0.13318| < 1e-4
    ∧ |(BlackScholes 0.05 50 48 0.5 0.4 "C" 0.02).printed.reportedTheta.getD 0
        - (-0.02348)| < 1e-4
    ∧ |(BlackScholes 0.05 50 48 0.5 0.4 "C" 0.02).printed.reportedRho.getD 0 - 0.12226| < 1e-4 := by
  have hN1 := N1_bounds
  have hN2 := N2_bounds
  have hP1 := P1_bounds
  have hE1 := E1_bounds
  have hE2 := E2_bounds
  have hs1 := sqrt_half_lb
  have hs2 := sqrt_half_ub
  have hs0 : (0:ℝ) < Real.sqrt 0.5 := Real.sqrt_pos.mpr (by norm_num)
  have hN1nn : (0:ℝ) ≤ normCdf (bs_d1 0.05 50 48 0.5 0.4 0.02) := normCdf_nonneg _
  have hN2nn : (0:ℝ) ≤ normCdf (bs_d2 0.05 50 48 0.5 0.4 0.02) := normCdf_nonneg _
  simp only [blackScholes_call, BSReport.reportedPrice, BSReport.reportedDelta,
    BSReport.reportedGamma, BSReport.reportedVega, BSReport.reportedTheta,
    BSReport.reportedRho, Option.getD_some]
  refine ⟨?_, ?_, ?_, ?_, ?_, ?_⟩
  · rw [abs_lt]
    constructor
    · nlinarith [mul_nonneg (sub_nonneg.mpr hE1.1) hN1nn,
        mul_nonneg hN2nn (sub_nonneg.mpr hE2.2), hN1.1, hN2.2, hE1.1, hE2.2]
    · nlinarith [mul_nonneg hN1nn (sub_nonneg.mpr hE1.2),
        mul_nonneg (sub_nonneg.mpr hE2.1) hN2nn, hN1.2, hN2.1, hE1.2, hE2.1]
  · rw [abs_lt]
    constructor <;> linarith [hN1.1, hN1.2]
  · have hgl : (0.0266359 : ℝ)
        ≤ normPdf (bs_d1 0.05 50 48 0.5 0.4 0.02) / (50 * 0.4 * Real.sqrt 0.5) := by
      rw [le_div_iff (by positivity)]
      nlinarith [hP1.1, hs2]
    have hgu : normPdf (bs_d1 0.05 50 48 0.5 0.4 0.02) / (50 * 0.4 * Real.sqrt 0.5)
        ≤ 0.0266415 := by
      rw [div_le_iff (by positivity)]
      nlinarith [hP1.2, hs1]
    rw [abs_lt]
    constructor <;> linarith
  · rw [abs_lt]
    constructor
    · nlinarith [mul_nonneg (sub_nonneg.mpr hP1.1) hs0.le, hs1, hP1.1]
    · nlinarith [mul_nonneg hs0.le (sub_nonneg.mpr hP1.2), hs2, hP1.2]
  · have hrw : -50 * normPdf (bs_d1 0.05 50 48 0.5 0.4 0.02) * 0.4 / (2 * Real.sqrt 0.5)
        = -(50 * normPdf (bs_d1 0.05 50 48 0.5 0.4 0.02) * 0.4 / (2 * Real.sqrt 0.5)) := by
      ring
    have hTl : -(5.327277 : ℝ)
        ≤ -50 * normPdf (bs_d1 0.05 50 48 0.5 0.4 0.02) * 0.4 / (2 * Real.sqrt 0.5) := by
      rw [hrw, neg_le_neg_iff, div_le_iff (by positivity)]
      nlinarith [hP1.2, hs1]
    have hTu : -50 * normPdf (bs_d1 0.05 50 48 0.5 0.4 0.02) * 0.4 / (2 * Real.sqrt 0.5)
        ≤ -(5.327180 : ℝ) := by
      rw [hrw, neg_le_neg_iff, le_div_iff (by positivity)]
      nlinarith [hP1.1, hs2]
    rw [abs_lt]
    constructor
    · nlinarith [hTl, hN1.1, mul_nonneg hN2nn (sub_nonneg.mpr hE2.2), hN2.2, hE2.2]
    · nlinarith [hTu, hN1.2, mul_nonneg (sub_nonneg.mpr hE2.1) hN2nn, hN2.1, hE2.1]
  · rw [abs_lt]
    constructor
    · nlinarith [mul_nonneg (sub_nonneg.mpr hE2.1) hN2nn, hN2.1, hE2.1]
    · nlinarith [mul_nonneg hN2nn (sub_nonneg.mpr hE2.2), hN2.2, hE2.2]

/-- C5 (code bug): at the notebook's reference input the Call theta printed by
the code is `(-S*N'(d1)*sigma/(2*sqrt T) + q*S*N(d1) - r*K*exp(-rT)*N(d2))/252`
with no `exp(-qT)` on the time-decay and dividend terms, and that value differs
from the documented formula in which both terms carry `exp(-qT)`. -/
theorem C5_theta_code_bug :
    (BlackScholes 0.05 50 48 0.5 0.4 "C" 0.02).printed.reportedTheta
      = some ((-50 * normPdf (bs_d1 0.05 50 48 0.5 0.4 0.02) * 0.4 / (2 * Real.sqrt 0.5)
          + 0.02 * 50 * normCdf (bs_d1 0.05 50 48 0.5 0.4 0.02)
          - 0.05 * 48 * Real.exp (-0.05 * 0.5) * normCdf (bs_d2 0.05 50 48 0.5 0.4 0.02)) / 252)
    ∧ (-50 * normPdf (bs_d1 0.05 50 48 0.5 0.4 0.02) * 0.4 / (2 * Real.sqrt 0.5)
          + 0.02 * 50 * normCdf (bs_d1 0.05 50 48 0.5 0.4 0.02)
          - 0.05 * 48 * Real.exp (-0.05 * 0.5) * normCdf (bs_d2 0.05 50 48 0.5 0.4 0.02)) / 252
      ≠ (1/252) * (-50 * Real.exp (-0.02 * 0.5) * normPdf (bs_d1 0.05 50 48 0.5 0.4 0.02) * 0.4
            / (2 * Real.sqrt 0.5)
          + 0.02 * 50 * Real.exp (-0.02 * 0.5) * normCdf (bs_d1 0.05 50 48 0.5 0.4 0.02)
          - 0.05 * 48 * Real.exp (-0.05 * 0.5) * normCdf (bs_d2 0.05 50 48 0.5 0.4 0.02)) := by
  refine ⟨by rw [blackScholes_call]; rfl, fun h => ?_⟩
  have hexp : Real.exp (-0.02 * 0.5) < 1 := by
    rw [Real.exp_lt_one_iff]; norm_num
  have hs : (0 : ℝ) < Real.sqrt 0.5 := Real.sqrt_pos.mpr (by norm_num)
  have key : (1 - Real.exp (-0.02 * 0.5)) *
      (0.02 * 50 * normCdf (bs_d1 0.05 50 48 0.5 0.4 0.02)
        - 50 * normPdf (bs_d1 0.05 50 48 0.5 0.4 0.02) * 0.4 / (2 * Real.sqrt 0.5)) = 0 := by
    linear_combination 252 * h
  have hP := normPdf_lb d1_ref_sq_le_one
  have hN := normCdf_le_one (bs_d1 0.05 50 48 0.5 0.4 0.02)
  have hfrac : (3 : ℝ) ≤ 50 * normPdf (bs_d1 0.05 50 48 0.5 0.4 0.02) * 0.4
      / (2 * Real.sqrt 0.5) := by
    rw [le_div_iff (by positivity)]
    nlinarith [sqrt_half_ub]
  have hneg : 0.02 * 50 * normCdf (bs_d1 0.05 50 48 0.5 0.4 0.02)
      - 50 * normPdf (bs_d1 0.05 50 48 0.5 0.4 0.02) * 0.4 / (2 * Real.sqrt 0.5) < 0 := by
    nlinarith
  exact (mul_ne_zero (by nlinarith) (ne_of_lt hneg)) key

end
